import Mathlib

/-!
Shallow embedding of the dynamic CRUD API service (src/main.rs).

The service keeps two in-memory maps: `schemas` (model name to JSON Schema
document) and `data` (model name to a map from record id to JSON value).
Handlers `upload_schema`, `create_item`, `get_item`, `update_item` and
`delete_item` are embedded as pure state-transition functions.  The JSON
Schema compiler/validator (the `jsonschema` crate) is an external
collaborator, modelled abstractly as a `SchemaLib`: `compile` may fail with
a message, `validate` returns the list of error messages (empty iff the
instance satisfies the schema).  The freshly generated UUID of `create_item`
is passed in as an explicit argument.  Rust `HashMap`s are embedded as
association lists with key-replacing insert and key-filtering remove.
-/

namespace DynamicApi

/-- JSON values (`serde_json::Value`): null, booleans, numbers, strings,
arrays and objects.  Numbers are modelled as integers; none of the embedded
operations inspects numeric content. -/
inductive Value where
  | null
  | bool (b : Bool)
  | num (n : Int)
  | str (s : String)
  | arr (elems : List Value)
  | obj (fields : List (String × Value))

/-- A string-keyed map, embedding Rust `HashMap<String, _>`. -/
abbrev SMap (α : Type) := List (String × α)

/-- `HashMap::get`: the value stored under key `k`, if any. -/
def mapGet {α : Type} : SMap α → String → Option α
  | [], _ => none
  | (k', v) :: rest, k => if k' = k then some v else mapGet rest k

/-- `HashMap::insert`: store `v` under `k`, replacing any previous value. -/
def mapInsert {α : Type} : SMap α → String → α → SMap α
  | [], k, v => [(k, v)]
  | (k', v') :: rest, k, v =>
      if k' = k then (k, v) :: rest else (k', v') :: mapInsert rest k v

/-- `HashMap::remove`: drop the entry stored under `k`, if any. -/
def mapRemove {α : Type} (m : SMap α) (k : String) : SMap α :=
  m.filter (fun p => p.1 ≠ k)

/-- The external JSON-Schema capability (the `jsonschema` crate):
`compile` turns a schema document into a compiled schema or fails with a
message; `validate` returns the list of validation error messages, empty
iff the instance satisfies the compiled schema. -/
structure SchemaLib : Type 1 where
  Compiled : Type
  compile : Value → Except String Compiled
  validate : Compiled → Value → List String

/-- `AppState`: the two shared collections, schemas by model name and
records by model name and id (src/main.rs lines 49-52). -/
structure AppState where
  schemas : SMap Value
  data : SMap (SMap Value)

/-- `validate_data` (src/main.rs lines 109-123): compile the schema,
turning a compile error into a one-element error list, then validate the
instance, failing with the collected error messages when there are any. -/
def validate_data (L : SchemaLib) (schema inst : Value) : Except (List String) Unit :=
  match L.compile schema with
  | .error e => .error [e]
  | .ok compiled =>
    match L.validate compiled inst with
    | [] => .ok ()
    | errors => .error errors

/-- `upload_schema` (src/main.rs lines 92-105): unconditionally store the
schema under the given name and report success. -/
def upload_schema (st : AppState) (name : String) (schema : Value) : AppState :=
  { st with schemas := mapInsert st.schemas name schema }

/-- Outcome of `create_item`; `created` carries the generated id and the
value read back from the store (`model_data.get(&id)`). -/
inductive CreateResult where
  | noSuchModel
  | validationFailed (errors : List String)
  | created (id : String) (stored : Option Value)

/-- The HTTP status `create_item` responds with: 400 `BadRequest` for a
missing schema or failed validation, 201 `Created` on success. -/
def CreateResult.status : CreateResult → Nat
  | .noSuchModel => 400
  | .validationFailed _ => 400
  | .created _ _ => 201

/-- `create_item` (src/main.rs lines 144-177): look up the schema for the
model (400 if absent), validate the payload (400 with the error list on
failure), then insert the payload into the model collection (created on
demand) under the freshly generated id and respond 201 with the id and the
stored value. -/
def create_item (L : SchemaLib) (st : AppState) (model_name : String) (item : Value)
    (freshId : String) : CreateResult × AppState :=
  match mapGet st.schemas model_name with
  | none => (.noSuchModel, st)
  | some schema =>
    match validate_data L schema item with
    | .error errors => (.validationFailed errors, st)
    | .ok _ =>
      let model_data := (mapGet st.data model_name).getD []
      let model_data' := mapInsert model_data freshId item
      (.created freshId (mapGet model_data' freshId),
        { st with data := mapInsert st.data model_name model_data' })

/-- `get_item` (src/main.rs lines 192-209): return the record stored under
the id in the model collection; `none` (404) when either the model has no
collection or the collection lacks the id.  Reads never touch schemas. -/
def get_item (st : AppState) (model_name item_id : String) : Option Value :=
  match mapGet st.data model_name with
  | none => none
  | some model_data => mapGet model_data item_id

/-- Outcome of `update_item`; `updated` carries the new stored value. -/
inductive UpdateResult where
  | noSuchModel
  | validationFailed (errors : List String)
  | updated (stored : Value)
  | notFound

/-- The HTTP status `update_item` responds with. -/
def UpdateResult.status : UpdateResult → Nat
  | .noSuchModel => 400
  | .validationFailed _ => 400
  | .updated _ => 200
  | .notFound => 404

/-- `update_item` (src/main.rs lines 232-266): look up the schema (400 if
absent), validate the payload (400 with errors on failure), and only then
check existence: if the model collection holds the id, replace the value
wholesale and respond 200, else 404. -/
def update_item (L : SchemaLib) (st : AppState) (model_name item_id : String)
    (item : Value) : UpdateResult × AppState :=
  match mapGet st.schemas model_name with
  | none => (.noSuchModel, st)
  | some schema =>
    match validate_data L schema item with
    | .error errors => (.validationFailed errors, st)
    | .ok _ =>
      match mapGet st.data model_name with
      | none => (.notFound, st)
      | some model_data =>
        match mapGet model_data item_id with
        | none => (.notFound, st)
        | some _ =>
          (.updated item,
            { st with data := mapInsert st.data model_name (mapInsert model_data item_id item) })

/-- Outcome of `delete_item`. -/
inductive DeleteResult where
  | deleted
  | notFound

/-- `delete_item` (src/main.rs lines 281-298): remove the id from the model
collection; 200 if an entry was removed, 404 otherwise.  No payload, no
validation. -/
def delete_item (st : AppState) (model_name item_id : String) :
    DeleteResult × AppState :=
  match mapGet st.data model_name with
  | none => (.notFound, st)
  | some model_data =>
    if (mapGet model_data item_id).isSome then
      (.deleted, { st with data := mapInsert st.data model_name (mapRemove model_data item_id) })
    else
      (.notFound, st)

/-- States reachable from the empty state (process start, src/main.rs
lines 304-307) by the five handlers; `get_item` does not change state. -/
inductive Reachable : AppState → Prop where
  | init : Reachable { schemas := [], data := [] }
  | upload (st : AppState) (n : String) (s : Value) :
      Reachable st → Reachable (upload_schema st n s)
  | create (L : SchemaLib) (st : AppState) (m : String) (p : Value) (freshId : String) :
      Reachable st → Reachable (create_item L st m p freshId).2
  | update (L : SchemaLib) (st : AppState) (m item_id : String) (p : Value) :
      Reachable st → Reachable (update_item L st m item_id p).2
  | delete (st : AppState) (m item_id : String) :
      Reachable st → Reachable (delete_item st m item_id).2

/-! Concrete fixtures used by the witness theorems. -/

/-- A schema library that compiles every document and accepts every
instance. -/
def LTriv : SchemaLib :=
  { Compiled := Unit, compile := fun _ => .ok (), validate := fun _ _ => [] }

/-- A schema library that compiles every document and rejects every
instance with one error message. -/
def LReject : SchemaLib :=
  { Compiled := Unit, compile := fun _ => .ok (), validate := fun _ _ => ["invalid"] }

/-- A schema library whose compiler rejects every document. -/
def LNoCompile : SchemaLib :=
  { Compiled := Unit, compile := fun _ => .error "bad schema", validate := fun _ _ => [] }

/-- A sample schema document. -/
def schW : Value :=
  Value.obj [("type", Value.str "object")]

/-- A sample payload. -/
def pW : Value :=
  Value.obj [("title", Value.str "Learn"), ("completed", Value.bool false)]

/-- A second sample payload. -/
def pW2 : Value :=
  Value.obj [("title", Value.str "Master"), ("completed", Value.bool true)]

/-- A second sample schema document, used as a replacement. -/
def schW2 : Value :=
  Value.obj [("type", Value.str "string")]

/-- The process-start state: both collections empty. -/
def stEmpty : AppState :=
  { schemas := [], data := [] }

/-- State with the sample schema registered for model `Task`. -/
def stSch : AppState :=
  upload_schema stEmpty "Task" schW

/-- State with the sample schema registered and one record stored. -/
def stRec : AppState :=
  (create_item LTriv stSch "Task" pW "id1").2

/-- State with the sample schema registered for the two models `A` and `B`. -/
def stAB : AppState :=
  upload_schema (upload_schema stEmpty "A" schW) "B" schW

/-! Association-list map lemmas. -/

theorem mapGet_mapInsert_self {α : Type} (m : SMap α) (k : String) (v : α) :
    mapGet (mapInsert m k v) k = some v := by
  induction m with
  | nil => simp [mapInsert, mapGet]
  | cons hd tl ih =>
    obtain ⟨k', v'⟩ := hd
    by_cases h : k' = k
    · simp [mapInsert, h, mapGet]
    · simp [mapInsert, h, mapGet, ih]

theorem mapGet_mapInsert_ne {α : Type} (m : SMap α) (k k' : String) (v : α)
    (h : k' ≠ k) : mapGet (mapInsert m k v) k' = mapGet m k' := by
  have hne : ¬ k = k' := fun hk => h hk.symm
  induction m with
  | nil => simp [mapInsert, mapGet, hne]
  | cons hd tl ih =>
    obtain ⟨k₀, v₀⟩ := hd
    by_cases hk : k₀ = k
    · subst hk
      simp [mapInsert, mapGet, hne]
    · simp [mapInsert, hk, mapGet, ih]

theorem mapInsert_mapInsert_same {α : Type} (m : SMap α) (k : String) (v w : α) :
    mapInsert (mapInsert m k v) k w = mapInsert m k w := by
  induction m with
  | nil => simp [mapInsert]
  | cons hd tl ih =>
    obtain ⟨k₀, v₀⟩ := hd
    by_cases hk : k₀ = k
    · simp [mapInsert, hk]
    · simp [mapInsert, hk, ih]

theorem mapGet_mapRemove_self {α : Type} (m : SMap α) (k : String) :
    mapGet (mapRemove m k) k = none := by
  induction m with
  | nil => simp [mapRemove, mapGet]
  | cons hd tl ih =>
    obtain ⟨k₀, v₀⟩ := hd
    by_cases hk : k₀ = k
    · simpa [mapRemove, hk] using ih
    · simpa [mapRemove, mapGet, hk] using ih

/-- A failing `validate_data` always carries at least one error message:
compile errors become a one-element list, and a failing validation is a
non-empty message list by the collaborator contract. -/
theorem validate_data_error_ne_nil (L : SchemaLib) (s p : Value)
    (errors : List String) (h : validate_data L s p = .error errors) :
    errors ≠ [] := by
  unfold validate_data at h
  split at h
  · simp only [Except.error.injEq] at h
    subst h
    simp
  · split at h
    · simp at h
    · simp only [Except.error.injEq] at h
      subst h
      assumption

/-! Locality of the operations: each handler writes at most the model
collection it was addressed to, and no handler but `upload_schema` touches
the schema registry. -/

theorem create_item_schemas (L : SchemaLib) (st : AppState) (m : String) (p : Value)
    (fid : String) : (create_item L st m p fid).2.schemas = st.schemas := by
  cases hs : mapGet st.schemas m with
  | none => simp [create_item, hs]
  | some schema =>
    cases hv : validate_data L schema p with
    | error errors => simp [create_item, hs, hv]
    | ok u => simp [create_item, hs, hv]

theorem update_item_schemas (L : SchemaLib) (st : AppState) (m iid : String)
    (p : Value) : (update_item L st m iid p).2.schemas = st.schemas := by
  cases hs : mapGet st.schemas m with
  | none => simp [update_item, hs]
  | some schema =>
    cases hv : validate_data L schema p with
    | error errors => simp [update_item, hs, hv]
    | ok u =>
      cases hd : mapGet st.data m with
      | none => simp [update_item, hs, hv, hd]
      | some md =>
        cases hi : mapGet md iid with
        | none => simp [update_item, hs, hv, hd, hi]
        | some old => simp [update_item, hs, hv, hd, hi]

theorem delete_item_schemas (st : AppState) (m iid : String) :
    (delete_item st m iid).2.schemas = st.schemas := by
  cases hd : mapGet st.data m with
  | none => simp [delete_item, hd]
  | some md =>
    by_cases hi : (mapGet md iid).isSome
    · simp [delete_item, hd, hi]
    · simp [delete_item, hd, hi]

theorem create_item_data_other (L : SchemaLib) (st : AppState) (B : String) (p : Value)
    (fid A : String) (hne : A ≠ B) :
    mapGet (create_item L st B p fid).2.data A = mapGet st.data A := by
  cases hs : mapGet st.schemas B with
  | none => simp [create_item, hs]
  | some schema =>
    cases hv : validate_data L schema p with
    | error errors => simp [create_item, hs, hv]
    | ok u => simp [create_item, hs, hv, mapGet_mapInsert_ne _ _ _ _ hne]

theorem update_item_data_other (L : SchemaLib) (st : AppState) (B iid : String)
    (p : Value) (A : String) (hne : A ≠ B) :
    mapGet (update_item L st B iid p).2.data A = mapGet st.data A := by
  cases hs : mapGet st.schemas B with
  | none => simp [update_item, hs]
  | some schema =>
    cases hv : validate_data L schema p with
    | error errors => simp [update_item, hs, hv]
    | ok u =>
      cases hd : mapGet st.data B with
      | none => simp [update_item, hs, hv, hd]
      | some md =>
        cases hi : mapGet md iid with
        | none => simp [update_item, hs, hv, hd, hi]
        | some old => simp [update_item, hs, hv, hd, hi, mapGet_mapInsert_ne _ _ _ _ hne]

theorem delete_item_data_other (st : AppState) (B iid A : String) (hne : A ≠ B) :
    mapGet (delete_item st B iid).2.data A = mapGet st.data A := by
  cases hd : mapGet st.data B with
  | none => simp [delete_item, hd]
  | some md =>
    by_cases hi : (mapGet md iid).isSome
    · simp [delete_item, hd, hi, mapGet_mapInsert_ne _ _ _ _ hne]
    · simp [delete_item, hd, hi]

theorem get_item_eq_of_data_eq (st st' : AppState) (A q : String)
    (h : mapGet st'.data A = mapGet st.data A) :
    get_item st' A q = get_item st A q := by
  unfold get_item
  rw [h]

/-- In every reachable state, a model name with a record collection has a
registered schema: `create_item` is the only operation that creates a
collection and it requires a successful schema lookup first, while schemas
are only ever inserted, never removed. -/
theorem reachable_collection_has_schema (st : AppState) (h : Reachable st) :
    ∀ m, (mapGet st.data m).isSome → (mapGet st.schemas m).isSome := by
  induction h with
  | init =>
    intro m hm
    simp [mapGet] at hm
  | upload st' n s _ ih =>
    intro m hm
    have hm' : (mapGet st'.data m).isSome := hm
    by_cases hmn : m = n
    · subst hmn
      simp [upload_schema, mapGet_mapInsert_self]
    · have := ih m hm'
      simpa [upload_schema, mapGet_mapInsert_ne st'.schemas n m s hmn] using this
  | create L st' m0 p fid _ ih =>
    intro m hm
    rw [create_item_schemas]
    by_cases hmm : m = m0
    · subst hmm
      cases hs : mapGet st'.schemas m with
      | some schema => simp
      | none =>
        rw [show (create_item L st' m p fid).2 = st' from by simp [create_item, hs]] at hm
        simpa [hs] using ih m hm
    · rw [create_item_data_other L st' m0 p fid m hmm] at hm
      exact ih m hm
  | update L st' m0 iid p _ ih =>
    intro m hm
    rw [update_item_schemas]
    by_cases hmm : m = m0
    · subst hmm
      cases hs : mapGet st'.schemas m with
      | some schema => simp
      | none =>
        rw [show (update_item L st' m iid p).2 = st' from by simp [update_item, hs]] at hm
        simpa [hs] using ih m hm
    · rw [update_item_data_other L st' m0 iid p m hmm] at hm
      exact ih m hm
  | delete st' m0 iid _ ih =>
    intro m hm
    rw [delete_item_schemas]
    by_cases hmm : m = m0
    · subst hmm
      cases hd : mapGet st'.data m with
      | some md => exact ih m (by simp [hd])
      | none =>
        rw [show (delete_item st' m iid).2 = st' from by simp [delete_item, hd]] at hm
        exact ih m hm
    · rw [delete_item_data_other st' m0 iid m hmm] at hm
      exact ih m hm

/-! The claims. -/

/-- C1: for every payload that fails schema validation, `create_item` and
`update_item` leave the whole state, the record store included, unchanged
(no partial write) and return `validationFailed` carrying a non-empty error
list. -/
theorem C1_validation_gate (L : SchemaLib) (st : AppState) (m : String) (p : Value)
    (freshId item_id : String) (schema : Value) (errors : List String)
    (hs : mapGet st.schemas m = some schema)
    (hv : validate_data L schema p = .error errors) :
    create_item L st m p freshId = (.validationFailed errors, st) ∧
    update_item L st m item_id p = (.validationFailed errors, st) ∧
    errors ≠ [] := by
  refine ⟨?_, ?_, validate_data_error_ne_nil L schema p errors hv⟩
  · simp [create_item, hs, hv]
  · simp [update_item, hs, hv]

theorem C1_validation_gate_witness :
    mapGet stSch.schemas "Task" = some schW ∧
    validate_data LReject schW pW = Except.error ["invalid"] ∧
    create_item LReject stSch "Task" pW "id1" = (.validationFailed ["invalid"], stSch) ∧
    update_item LReject stSch "Task" "id1" pW = (.validationFailed ["invalid"], stSch) ∧
    ["invalid"] ≠ ([] : List String) := by
  have h := C1_validation_gate LReject stSch "Task" pW "id1" "id1" schW ["invalid"] rfl rfl
  exact ⟨rfl, rfl, h.1, h.2.1, h.2.2⟩

/-- C2: when the payload validates against the schema registered at creation
time, `create_item` succeeds with the fresh id and the stored payload, and
`get_item` on that id returns exactly the payload — also after the schema
for the model is later replaced by `upload_schema`, since reads never
re-validate stored records. -/
theorem C2_round_trip (L : SchemaLib) (st : AppState) (m : String) (p : Value)
    (freshId : String) (schema : Value)
    (hs : mapGet st.schemas m = some schema)
    (hv : validate_data L schema p = .ok ()) :
    (create_item L st m p freshId).1 = .created freshId (some p) ∧
    get_item (create_item L st m p freshId).2 m freshId = some p ∧
    ∀ n s, get_item (upload_schema (create_item L st m p freshId).2 n s) m freshId = some p := by
  have hres : create_item L st m p freshId =
      (.created freshId (some p),
        { st with data :=
            mapInsert st.data m (mapInsert ((mapGet st.data m).getD []) freshId p) }) := by
    simp [create_item, hs, hv, mapGet_mapInsert_self]
  refine ⟨by rw [hres], ?_, ?_⟩
  · rw [hres]
    simp [get_item, mapGet_mapInsert_self]
  · intro n s
    rw [hres]
    simp [upload_schema, get_item, mapGet_mapInsert_self]

theorem C2_round_trip_witness :
    mapGet stSch.schemas "Task" = some schW ∧
    validate_data LTriv schW pW = Except.ok () ∧
    (create_item LTriv stSch "Task" pW "id1").1 = .created "id1" (some pW) ∧
    get_item (create_item LTriv stSch "Task" pW "id1").2 "Task" "id1" = some pW ∧
    get_item (upload_schema (create_item LTriv stSch "Task" pW "id1").2 "Task" schW2)
      "Task" "id1" = some pW := by
  have h := C2_round_trip LTriv stSch "Task" pW "id1" schW rfl rfl
  exact ⟨rfl, rfl, h.1, h.2.1, h.2.2 "Task" schW2⟩

/-- C3: `update_item` runs the validation gate before the existence check:
with a registered schema, an invalid payload against a nonexistent record
id yields `validationFailed`, never `notFound`. -/
theorem C3_validate_before_existence (L : SchemaLib) (st : AppState) (m item_id : String)
    (p schema : Value) (errors : List String)
    (hs : mapGet st.schemas m = some schema)
    (hv : validate_data L schema p = .error errors)
    (_hmiss : get_item st m item_id = none) :
    (update_item L st m item_id p).1 = .validationFailed errors ∧
    (update_item L st m item_id p).1 ≠ .notFound := by
  have h1 : (update_item L st m item_id p).1 = .validationFailed errors := by
    simp [update_item, hs, hv]
  refine ⟨h1, ?_⟩
  rw [h1]
  simp

theorem C3_validate_before_existence_witness :
    mapGet stSch.schemas "Task" = some schW ∧
    validate_data LReject schW pW = Except.error ["invalid"] ∧
    get_item stSch "Task" "missing" = none ∧
    (update_item LReject stSch "Task" "missing" pW).1 = .validationFailed ["invalid"] ∧
    (update_item LReject stSch "Task" "missing" pW).1 ≠ .notFound := by
  have h := C3_validate_before_existence LReject stSch "Task" "missing" pW schW
    ["invalid"] rfl rfl rfl
  exact ⟨rfl, rfl, rfl, h.1, h.2⟩

/-- C4: for a model name with no registered schema, `create_item` returns
`noSuchModel` with HTTP status 400 (a client error, not a server fault) and
leaves the state, the record store included, unchanged. -/
theorem C4_no_such_model (L : SchemaLib) (st : AppState) (m : String) (p : Value)
    (freshId : String) (hs : mapGet st.schemas m = none) :
    create_item L st m p freshId = (.noSuchModel, st) ∧
    (create_item L st m p freshId).1.status = 400 := by
  have h : create_item L st m p freshId = (.noSuchModel, st) := by
    simp [create_item, hs]
  refine ⟨h, ?_⟩
  rw [h]
  rfl

theorem C4_no_such_model_witness :
    mapGet stEmpty.schemas "Ghost" = none ∧
    create_item LTriv stEmpty "Ghost" (Value.obj []) "id1" = (.noSuchModel, stEmpty) ∧
    (create_item LTriv stEmpty "Ghost" (Value.obj []) "id1").1.status = 400 := by
  have h := C4_no_such_model LTriv stEmpty "Ghost" (Value.obj []) "id1" rfl
  exact ⟨rfl, h.1, h.2⟩

/-- C5: schema registration is unconditional last-write-wins: for every
state, name and schema document, `upload_schema` stores the document under
the name (no validation, no failure path), leaves every other name and the
record store untouched, and uploading the same document twice under one
name yields exactly the state of uploading it once. -/
theorem C5_register_last_write_wins (st : AppState) (n : String) (s : Value) :
    mapGet (upload_schema st n s).schemas n = some s ∧
    (∀ n', n' ≠ n → mapGet (upload_schema st n s).schemas n' = mapGet st.schemas n') ∧
    upload_schema (upload_schema st n s) n s = upload_schema st n s ∧
    (upload_schema st n s).data = st.data := by
  refine ⟨mapGet_mapInsert_self _ _ _, ?_, ?_, rfl⟩
  · intro n' hne
    exact mapGet_mapInsert_ne _ _ _ _ hne
  · simp [upload_schema, mapInsert_mapInsert_same]

theorem C5_register_last_write_wins_witness :
    mapGet (upload_schema stEmpty "Task" schW).schemas "Task" = some schW ∧
    (("Other" : String) ≠ "Task" ∧
      mapGet (upload_schema stEmpty "Task" schW).schemas "Other" =
        mapGet stEmpty.schemas "Other") ∧
    upload_schema (upload_schema stEmpty "Task" schW) "Task" schW =
      upload_schema stEmpty "Task" schW ∧
    (upload_schema stEmpty "Task" schW).data = stEmpty.data := by
  have h := C5_register_last_write_wins stEmpty "Task" schW
  exact ⟨h.1, ⟨by decide, h.2.1 "Other" (by decide)⟩, h.2.2.1, h.2.2.2⟩

/-- C6: when the registered schema for a model fails to compile,
`create_item` and `update_item` return `validationFailed` whose error list
is exactly the one-element list holding the compile error — there is no
distinct schema-compile failure case. -/
theorem C6_compile_error_single_element (L : SchemaLib) (st : AppState)
    (m freshId item_id : String) (p schema : Value) (e : String)
    (hs : mapGet st.schemas m = some schema)
    (hc : L.compile schema = .error e) :
    (create_item L st m p freshId).1 = .validationFailed [e] ∧
    (update_item L st m item_id p).1 = .validationFailed [e] ∧
    [e].length = 1 := by
  have hv : validate_data L schema p = .error [e] := by
    simp [validate_data, hc]
  refine ⟨?_, ?_, rfl⟩
  · simp [create_item, hs, hv]
  · simp [update_item, hs, hv]

theorem C6_compile_error_single_element_witness :
    mapGet stSch.schemas "Task" = some schW ∧
    LNoCompile.compile schW = Except.error "bad schema" ∧
    (create_item LNoCompile stSch "Task" pW "id1").1 = .validationFailed ["bad schema"] ∧
    (update_item LNoCompile stSch "Task" "id1" pW).1 = .validationFailed ["bad schema"] ∧
    ["bad schema"].length = 1 := by
  have h := C6_compile_error_single_element LNoCompile stSch "Task" "id1" "id1" pW schW
    "bad schema" rfl rfl
  exact ⟨rfl, rfl, h.1, h.2.1, h.2.2⟩

/-- C7: deletion is final: once `delete_item` succeeds for a model and id,
`get_item` on that id returns nothing and a second `delete_item` returns
`notFound` without changing the state further. -/
theorem C7_deletion_final (st : AppState) (m item_id : String)
    (h : (delete_item st m item_id).1 = .deleted) :
    get_item (delete_item st m item_id).2 m item_id = none ∧
    delete_item (delete_item st m item_id).2 m item_id =
      (.notFound, (delete_item st m item_id).2) := by
  cases hd : mapGet st.data m with
  | none =>
    rw [show (delete_item st m item_id).1 = .notFound from by simp [delete_item, hd]] at h
    simp at h
  | some md =>
    by_cases hi : (mapGet md item_id).isSome
    · have hst : (delete_item st m item_id).2 =
          { st with data := mapInsert st.data m (mapRemove md item_id) } := by
        simp [delete_item, hd, hi]
      constructor
      · rw [hst]
        simp [get_item, mapGet_mapInsert_self, mapGet_mapRemove_self]
      · rw [hst]
        simp [delete_item, mapGet_mapInsert_self, mapGet_mapRemove_self]
    · rw [show (delete_item st m item_id).1 = .notFound from by simp [delete_item, hd, hi]] at h
      simp at h

theorem C7_deletion_final_witness :
    (delete_item stRec "Task" "id1").1 = .deleted ∧
    get_item (delete_item stRec "Task" "id1").2 "Task" "id1" = none ∧
    delete_item (delete_item stRec "Task" "id1").2 "Task" "id1" =
      (.notFound, (delete_item stRec "Task" "id1").2) := by
  have h := C7_deletion_final stRec "Task" "id1" rfl
  exact ⟨rfl, h.1, h.2⟩

/-- C8: models are isolated namespaces: `create_item`, `update_item` and
`delete_item` addressed to model `B` leave reads under any other model `A`
unchanged; in particular an id created under `B` and not previously present
under `A` is still not found under `A`. -/
theorem C8_model_isolation (L : SchemaLib) (st : AppState) (A B : String)
    (p p' : Value) (freshId rid q : String) (hne : A ≠ B) :
    get_item (create_item L st B p freshId).2 A q = get_item st A q ∧
    get_item (update_item L st B rid p').2 A q = get_item st A q ∧
    get_item (delete_item st B rid).2 A q = get_item st A q ∧
    (get_item st A freshId = none →
      get_item (create_item L st B p freshId).2 A freshId = none) := by
  refine ⟨?_, ?_, ?_, ?_⟩
  · exact get_item_eq_of_data_eq _ _ _ _ (create_item_data_other L st B p freshId A hne)
  · exact get_item_eq_of_data_eq _ _ _ _ (update_item_data_other L st B rid p' A hne)
  · exact get_item_eq_of_data_eq _ _ _ _ (delete_item_data_other st B rid A hne)
  · intro h0
    rw [get_item_eq_of_data_eq _ _ _ _ (create_item_data_other L st B p freshId A hne)]
    exact h0

theorem C8_model_isolation_witness :
    ("A" : String) ≠ "B" ∧
    get_item stAB "A" "idB" = none ∧
    get_item (create_item LTriv stAB "B" pW "idB").2 "A" "idB" = get_item stAB "A" "idB" ∧
    get_item (create_item LTriv stAB "B" pW "idB").2 "A" "idB" = none := by
  have h := C8_model_isolation LTriv stAB "A" "B" pW pW2 "idB" "r1" "idB" (by decide)
  exact ⟨by decide, rfl, h.1, h.2.2.2 rfl⟩

/-- C9: in every reachable state, a model holding at least one stored
record has a currently-registered schema: `create_item` is the only
operation inserting records and requires a successful schema lookup, and
schemas are never deleted. -/
theorem C9_populated_model_has_schema (st : AppState) (m rid : String)
    (md : SMap Value) (v : Value) (h : Reachable st)
    (hm : mapGet st.data m = some md) (_hrec : mapGet md rid = some v) :
    (mapGet st.schemas m).isSome := by
  exact reachable_collection_has_schema st h m (by simp [hm])

theorem C9_populated_model_has_schema_witness :
    Reachable stRec ∧
    mapGet stRec.data "Task" = some [("id1", pW)] ∧
    mapGet [("id1", pW)] "id1" = some pW ∧
    (mapGet stRec.schemas "Task").isSome := by
  have hr : Reachable stRec :=
    Reachable.create LTriv stSch "Task" pW "id1"
      (Reachable.upload stEmpty "Task" schW Reachable.init)
  exact ⟨hr, rfl, rfl,
    C9_populated_model_has_schema stRec "Task" "id1" [("id1", pW)] pW hr rfl rfl⟩

/-- C10: if the generated id already exists in the model collection,
`create_item` silently overwrites the stored record under that id
(map-insert semantics) and still responds 201 with that id and the new
value; there is no collision detection or failure path. -/
theorem C10_collision_overwrites (L : SchemaLib) (st : AppState) (m freshId : String)
    (p old schema : Value) (md : SMap Value)
    (hs : mapGet st.schemas m = some schema)
    (hv : validate_data L schema p = .ok ())
    (hd : mapGet st.data m = some md)
    (_hcol : mapGet md freshId = some old) :
    (create_item L st m p freshId).1 = .created freshId (some p) ∧
    (create_item L st m p freshId).1.status = 201 ∧
    get_item (create_item L st m p freshId).2 m freshId = some p := by
  have hres : create_item L st m p freshId =
      (.created freshId (some p),
        { st with data := mapInsert st.data m (mapInsert md freshId p) }) := by
    simp [create_item, hs, hv, hd, mapGet_mapInsert_self]
  refine ⟨by rw [hres], ?_, ?_⟩
  · rw [hres]
    rfl
  · rw [hres]
    simp [get_item, mapGet_mapInsert_self]

theorem C10_collision_overwrites_witness :
    mapGet stRec.schemas "Task" = some schW ∧
    validate_data LTriv schW pW2 = Except.ok () ∧
    mapGet stRec.data "Task" = some [("id1", pW)] ∧
    mapGet [("id1", pW)] "id1" = some pW ∧
    (create_item LTriv stRec "Task" pW2 "id1").1 = .created "id1" (some pW2) ∧
    (create_item LTriv stRec "Task" pW2 "id1").1.status = 201 ∧
    get_item (create_item LTriv stRec "Task" pW2 "id1").2 "Task" "id1" = some pW2 := by
  have h := C10_collision_overwrites LTriv stRec "Task" "id1" pW2 pW schW
    [("id1", pW)] rfl rfl rfl rfl
  exact ⟨rfl, rfl, rfl, rfl, h.1, h.2.1, h.2.2⟩

end DynamicApi
